import Mathlib

/-!
Verification development for the STIMPL interpreter core
(src/stimpl-main/stimpl/runtime.py).

The evaluator is a recursive dispatch over an immutable expression tree,
threading a persistent (extend-only) environment chain and returning a
(value, type, environment) triple.  We embed the interpreter shallowly:

 - Python scalar values become the inductive `Value`; Python floats are
   modelled as rationals (the spec describes FloatingPoint division as
   exact real division, and every concrete float in the claims is exactly
   representable).
 - The environment classes `State` / `EmptyState` become the inductive
   `State` with `set_value` / `get_value` translated clause-for-clause.
 - Exceptions become the `InterpError` inductive; message strings are
   elided (the spec's error-handling design says assertions are on the
   kind of an error, never its message text).
 - Python's unbounded `while` loop is made total with a fuel parameter:
   every recursive call consumes one unit of fuel and exhaustion yields
   the distinguished `timeout` result, which no source behaviour maps to.
 - `print` side effects are collected into an output list of lines.
-/

set_option linter.unusedVariables false
set_option linter.unnecessarySeqFocus false

namespace Stimpl

/-- Modelled from the spec: the closed set of runtime type tags
(Unit, Integer, FloatingPoint, String, Boolean) defined in
stimpl/types.py, which is outside src/.  Tags compare structurally,
by kind only. -/
inductive Ty where
  | Unit
  | Integer
  | FloatingPoint
  | String
  | Boolean
deriving DecidableEq

/-- Runtime scalar values.  `VNone` is Python's None (the unit marker),
`VFloat` models a Python float as an exact rational. -/
inductive Value where
  | VNone
  | VInt (n : Int)
  | VFloat (q : Rat)
  | VStr (s : String)
  | VBool (b : Bool)
deriving DecidableEq

/-- Modelled from the spec: the expression-tree node kinds defined in
stimpl/expression.py, which is outside src/; the constructor and field
names follow the patterns matched in runtime.py's `evaluate`.  `Ren` is
the unit literal.  `Assign` holds the target `Variable` node, which we
flatten to its name.  `UnknownExpr` stands for an expression kind outside
the recognized set (the spec's "any unrecognized kind" row), routed to
the evaluator's fallback `case _`. -/
inductive Expr where
  | Ren
  | IntLiteral (literal : Int)
  | FloatingPointLiteral (literal : Rat)
  | StringLiteral (literal : String)
  | BooleanLiteral (literal : Bool)
  | Print (to_print : Expr)
  | Sequence (exprs : List Expr)
  | Program (exprs : List Expr)
  | Variable (variable_name : String)
  | Assign (variable_name : String) (value : Expr)
  | Add (left right : Expr)
  | Subtract (left right : Expr)
  | Multiply (left right : Expr)
  | Divide (left right : Expr)
  | And (left right : Expr)
  | Or (left right : Expr)
  | Not (expr : Expr)
  | If (condition : Expr) (true_branch false_branch : Expr)
  | Lt (left right : Expr)
  | Lte (left right : Expr)
  | Gt (left right : Expr)
  | Gte (left right : Expr)
  | Eq (left right : Expr)
  | Ne (left right : Expr)
  | While (condition body : Expr)
  | UnknownExpr

/-- The interpreter environment: `EmptyState` is the sentinel class, and
`mk` is the `State(variable_name, variable_value, variable_type,
next_state)` constructor, one binding plus the parent reference. -/
inductive State where
  | EmptyState
  | mk (variable_name : String) (value : Value) (ty : Ty) (next_state : State)
deriving DecidableEq

/-- State.set_value: returns a new head node whose parent is `self`;
the receiver is not modified (runtime.py lines 22-23). -/
def State.set_value : State → String → Value → Ty → State
  | s, n, v, t => .mk n v t s

/-- State.get_value: walk from the head toward the sentinel and return
the first binding whose name matches, or `none` when the sentinel is
reached (runtime.py lines 25-37; `EmptyState.get_value` also returns
None, lines 50-51). -/
def State.get_value : State → String → Option (Value × Ty)
  | .EmptyState, _ => none
  | .mk n v t next, name => if n = name then some (v, t) else next.get_value name

/-- Modelled from the spec: the exception classes of stimpl/errors.py
(outside src/), named exactly as raised in runtime.py.  Message strings
are elided: the spec's error taxonomy is by kind. -/
inductive InterpError where
  | InterpSyntaxError
  | InterpTypeError
  | InterpMathError
deriving DecidableEq

/-- Result of an evaluation: the (value, type, state) triple plus the
list of lines printed, a raised error plus the lines printed before it,
or fuel exhaustion (an artifact of making the source's unbounded loop
total; no source behaviour maps to `timeout`). -/
inductive EvalResult where
  | ok (value : Value) (ty : Ty) (state : State) (out : List String)
  | error (err : InterpError) (out : List String)
  | timeout (out : List String)
deriving DecidableEq

/-- Prefix previously printed lines onto a result's output. -/
def EvalResult.prependOut : EvalResult → List String → EvalResult
  | .ok v t s o2, o1 => .ok v t s (o1 ++ o2)
  | .error e o2, o1 => .error e (o1 ++ o2)
  | .timeout o2, o1 => .timeout (o1 ++ o2)

/-- Sequencing of evaluations: on success feed the triple to the
continuation (keeping the lines already printed); errors and timeouts
abort immediately, as exceptions do in the source. -/
def EvalResult.andThen : EvalResult → (Value → Ty → State → EvalResult) → EvalResult
  | .ok v t s o, f => (f v t s).prependOut o
  | .error e o, _ => .error e o
  | .timeout o, _ => .timeout o

/-- Python truthiness of the embedded values, used where the source
branches on a value (`if condition_value`, `not expr_value`,
`left and right`). -/
def pyTruthy : Value → Bool
  | .VNone => false
  | .VInt n => n != 0
  | .VFloat q => q != 0
  | .VStr s => s != ""
  | .VBool b => b

/-- Python's `value == 0` over the embedded values (runtime.py line 189):
ints and rationals compare numerically, `False == 0` is `True`, and
`None`/strings never equal `0`. -/
def pyEqZero : Value → Bool
  | .VNone => false
  | .VInt n => n == 0
  | .VFloat q => q == 0
  | .VStr _ => false
  | .VBool b => b == false

/-- Python `str()` rendering used by `print` (the exact float rendering
is a modelling approximation; no claim depends on it). -/
def pyStr : Value → String
  | .VNone => "None"
  | .VInt n => toString n
  | .VFloat q => toString q
  | .VStr s => s
  | .VBool b => if b then "True" else "False"

mutual

/-- The evaluator (runtime.py lines 62-428), case by case in source
order.  `fuel` bounds the recursion depth; each recursive call consumes
one unit. -/
def evaluate : Nat → Expr → State → EvalResult
  | 0, _, _ => .timeout []
  | fuel+1, .Ren, s => .ok .VNone .Unit s []
  | fuel+1, .IntLiteral l, s => .ok (.VInt l) .Integer s []
  | fuel+1, .FloatingPointLiteral l, s => .ok (.VFloat l) .FloatingPoint s []
  | fuel+1, .StringLiteral l, s => .ok (.VStr l) .String s []
  | fuel+1, .BooleanLiteral l, s => .ok (.VBool l) .Boolean s []
  | fuel+1, .Print e, s =>
      (evaluate fuel e s).andThen fun v t s1 =>
        match t with
        | .Unit => .ok v t s1 ["Unit"]
        | _ => .ok v t s1 [pyStr v]
  | fuel+1, .Sequence es, s => evalSeq fuel es .VNone .Unit s
  | fuel+1, .Program es, s => evalSeq fuel es .VNone .Unit s
  | fuel+1, .Variable name, s =>
      match s.get_value name with
      | none => .error .InterpSyntaxError []
      | some (v, t) => .ok v t s []
  | fuel+1, .Assign name ve, s =>
      (evaluate fuel ve s).andThen fun v t s1 =>
        match s1.get_value name with
        | some (_, t0) =>
            if t ≠ t0 then .error .InterpTypeError []
            else .ok v t (s1.set_value name v t) []
        | none => .ok v t (s1.set_value name v t) []
  | fuel+1, .Add l r, s =>
      (evaluate fuel l s).andThen fun lv lt s1 =>
        (evaluate fuel r s1).andThen fun rv rt s2 =>
          if lt ≠ rt then .error .InterpTypeError []
          else
            match lt, lv, rv with
            | .Integer, .VInt a, .VInt b => .ok (.VInt (a + b)) lt s2 []
            | .String, .VStr a, .VStr b => .ok (.VStr (a ++ b)) lt s2 []
            | .FloatingPoint, .VFloat a, .VFloat b => .ok (.VFloat (a + b)) lt s2 []
            | _, _, _ => .error .InterpTypeError []
  | fuel+1, .Subtract l r, s =>
      (evaluate fuel l s).andThen fun lv lt s1 =>
        (evaluate fuel r s1).andThen fun rv rt s2 =>
          if lt ≠ rt then .error .InterpTypeError []
          else
            match lt, lv, rv with
            | .Integer, .VInt a, .VInt b => .ok (.VInt (a - b)) lt s2 []
            | .FloatingPoint, .VFloat a, .VFloat b => .ok (.VFloat (a - b)) lt s2 []
            | _, _, _ => .error .InterpTypeError []
  | fuel+1, .Multiply l r, s =>
      (evaluate fuel l s).andThen fun lv lt s1 =>
        (evaluate fuel r s1).andThen fun rv rt s2 =>
          if lt ≠ rt then .error .InterpTypeError []
          else
            match lt, lv, rv with
            | .Integer, .VInt a, .VInt b => .ok (.VInt (a * b)) lt s2 []
            | .FloatingPoint, .VFloat a, .VFloat b => .ok (.VFloat (a * b)) lt s2 []
            | _, _, _ => .error .InterpTypeError []
  | fuel+1, .Divide l r, s =>
      (evaluate fuel l s).andThen fun lv lt s1 =>
        (evaluate fuel r s1).andThen fun rv rt s2 =>
          if lt ≠ rt then .error .InterpTypeError []
          else if pyEqZero rv then .error .InterpMathError []
          else
            match lt, lv, rv with
            | .Integer, .VInt a, .VInt b => .ok (.VInt (a.fdiv b)) lt s2 []
            | .FloatingPoint, .VFloat a, .VFloat b => .ok (.VFloat (a / b)) lt s2 []
            | _, _, _ => .error .InterpTypeError []
  | fuel+1, .And l r, s =>
      (evaluate fuel l s).andThen fun lv lt s1 =>
        (evaluate fuel r s1).andThen fun rv rt s2 =>
          if lt ≠ rt then .error .InterpTypeError []
          else
            match lt with
            | .Boolean => .ok (if pyTruthy lv then rv else lv) lt s2 []
            | _ => .error .InterpTypeError []
  | fuel+1, .Or l r, s =>
      (evaluate fuel l s).andThen fun lv lt s1 =>
        (evaluate fuel r s1).andThen fun rv rt s2 =>
          if lt ≠ rt then .error .InterpTypeError []
          else
            match lt with
            | .Boolean => .ok (if pyTruthy lv then lv else rv) lt s2 []
            | _ => .error .InterpTypeError []
  | fuel+1, .Not e, s =>
      (evaluate fuel e s).andThen fun v t s1 =>
        match t with
        | .Boolean => .ok (.VBool (!(pyTruthy v))) t s1 []
        | _ => .error .InterpTypeError []
  | fuel+1, .If c tb fb, s =>
      (evaluate fuel c s).andThen fun cv ct s1 =>
        match ct with
        | .Boolean => if pyTruthy cv then evaluate fuel tb s1 else evaluate fuel fb s1
        | _ => .error .InterpTypeError []
  | fuel+1, .Lt l r, s =>
      (evaluate fuel l s).andThen fun lv lt s1 =>
        (evaluate fuel r s1).andThen fun rv rt s2 =>
          if lt ≠ rt then .error .InterpTypeError []
          else
            match lt, lv, rv with
            | .Integer, .VInt a, .VInt b => .ok (.VBool (decide (a < b))) .Boolean s2 []
            | .Boolean, .VBool a, .VBool b => .ok (.VBool (decide (a < b))) .Boolean s2 []
            | .String, .VStr a, .VStr b => .ok (.VBool (decide (a < b))) .Boolean s2 []
            | .FloatingPoint, .VFloat a, .VFloat b => .ok (.VBool (decide (a < b))) .Boolean s2 []
            | .Unit, _, _ => .ok (.VBool false) .Boolean s2 []
            | _, _, _ => .error .InterpTypeError []
  | fuel+1, .Lte l r, s =>
      (evaluate fuel l s).andThen fun lv lt s1 =>
        (evaluate fuel r s1).andThen fun rv rt s2 =>
          if lt ≠ rt then .error .InterpTypeError []
          else
            match lt, lv, rv with
            | .Integer, .VInt a, .VInt b => .ok (.VBool (decide (a ≤ b))) .Boolean s2 []
            | .Boolean, .VBool a, .VBool b => .ok (.VBool (decide (a ≤ b))) .Boolean s2 []
            | .String, .VStr a, .VStr b => .ok (.VBool (decide (a ≤ b))) .Boolean s2 []
            | .FloatingPoint, .VFloat a, .VFloat b => .ok (.VBool (decide (a ≤ b))) .Boolean s2 []
            | .Unit, _, _ => .ok (.VBool true) .Boolean s2 []
            | _, _, _ => .error .InterpTypeError []
  | fuel+1, .Gt l r, s =>
      (evaluate fuel l s).andThen fun lv lt s1 =>
        (evaluate fuel r s1).andThen fun rv rt s2 =>
          if lt ≠ rt then .error .InterpTypeError []
          else
            match lt, lv, rv with
            | .Integer, .VInt a, .VInt b => .ok (.VBool (decide (a > b))) .Boolean s2 []
            | .Boolean, .VBool a, .VBool b => .ok (.VBool (decide (a > b))) .Boolean s2 []
            | .String, .VStr a, .VStr b => .ok (.VBool (decide (a > b))) .Boolean s2 []
            | .FloatingPoint, .VFloat a, .VFloat b => .ok (.VBool (decide (a > b))) .Boolean s2 []
            | .Unit, _, _ => .ok (.VBool false) .Boolean s2 []
            | _, _, _ => .error .InterpTypeError []
  | fuel+1, .Gte l r, s =>
      (evaluate fuel l s).andThen fun lv lt s1 =>
        (evaluate fuel r s1).andThen fun rv rt s2 =>
          if lt ≠ rt then .error .InterpTypeError []
          else
            match lt, lv, rv with
            | .Integer, .VInt a, .VInt b => .ok (.VBool (decide (a ≥ b))) .Boolean s2 []
            | .Boolean, .VBool a, .VBool b => .ok (.VBool (decide (a ≥ b))) .Boolean s2 []
            | .String, .VStr a, .VStr b => .ok (.VBool (decide (a ≥ b))) .Boolean s2 []
            | .FloatingPoint, .VFloat a, .VFloat b => .ok (.VBool (decide (a ≥ b))) .Boolean s2 []
            | .Unit, _, _ => .ok (.VBool true) .Boolean s2 []
            | _, _, _ => .error .InterpTypeError []
  | fuel+1, .Eq l r, s =>
      (evaluate fuel l s).andThen fun lv lt s1 =>
        (evaluate fuel r s1).andThen fun rv rt s2 =>
          if lt ≠ rt then .error .InterpTypeError []
          else
            match lt, lv, rv with
            | .Integer, .VInt a, .VInt b => .ok (.VBool (decide (a = b))) .Boolean s2 []
            | .Boolean, .VBool a, .VBool b => .ok (.VBool (decide (a = b))) .Boolean s2 []
            | .String, .VStr a, .VStr b => .ok (.VBool (decide (a = b))) .Boolean s2 []
            | .FloatingPoint, .VFloat a, .VFloat b => .ok (.VBool (decide (a = b))) .Boolean s2 []
            | .Unit, _, _ => .ok (.VBool true) .Boolean s2 []
            | _, _, _ => .error .InterpTypeError []
  | fuel+1, .Ne l r, s =>
      (evaluate fuel l s).andThen fun lv lt s1 =>
        (evaluate fuel r s1).andThen fun rv rt s2 =>
          if lt ≠ rt then .error .InterpTypeError []
          else
            match lt, lv, rv with
            | .Integer, .VInt a, .VInt b => .ok (.VBool (!(decide (a = b)))) .Boolean s2 []
            | .Boolean, .VBool a, .VBool b => .ok (.VBool (!(decide (a = b)))) .Boolean s2 []
            | .String, .VStr a, .VStr b => .ok (.VBool (!(decide (a = b)))) .Boolean s2 []
            | .FloatingPoint, .VFloat a, .VFloat b => .ok (.VBool (!(decide (a = b)))) .Boolean s2 []
            | .Unit, _, _ => .ok (.VBool false) .Boolean s2 []
            | _, _, _ => .error .InterpTypeError []
  | fuel+1, .While c b, s => whileLoop fuel c b .VNone .Unit s
  | fuel+1, .UnknownExpr, s => .error .InterpSyntaxError []
termination_by fuel e s => (fuel, sizeOf e)

/-- The body of the Sequence/Program case (runtime.py lines 91-100):
fold the element list left to right, threading the state; the
accumulator starts at (None, Unit) and ends as the last element's
(value, type). -/
def evalSeq : Nat → List Expr → Value → Ty → State → EvalResult
  | _, [], accV, accT, s => .ok accV accT s []
  | fuel, e :: rest, _, _, s =>
      match evaluate fuel e s with
      | .ok v t s1 o1 => (evalSeq fuel rest v t s1).prependOut o1
      | .error err o1 => .error err o1
      | .timeout o1 => .timeout o1
termination_by fuel es accV accT s => (fuel, sizeOf es)

/-- The While case's loop (runtime.py lines 401-423): evaluate the
condition from the current state; a false Boolean condition returns the
accumulated (value, type) and the **current** state, discarding the
state produced by that final condition check; a true condition runs the
body and loops with the body's triple as the new accumulator. -/
def whileLoop : Nat → Expr → Expr → Value → Ty → State → EvalResult
  | 0, _, _, _, _, _ => .timeout []
  | fuel+1, c, b, accV, accT, s =>
      match evaluate fuel c s with
      | .ok cv ct s1 o1 =>
          match ct with
          | .Boolean =>
              if pyTruthy cv then
                match evaluate fuel b s1 with
                | .ok bv bt s2 o2 => (whileLoop fuel c b bv bt s2).prependOut (o1 ++ o2)
                | .error err o2 => .error err (o1 ++ o2)
                | .timeout o2 => .timeout (o1 ++ o2)
              else .ok accV accT s o1
          | _ => .error .InterpTypeError o1
      | .error err o1 => .error err o1
      | .timeout o1 => .timeout o1
termination_by fuel c b accV accT s => (fuel, 0)

end

/-- The driver run_stimpl (runtime.py lines 431-440): evaluate the
program against the empty environment; the debug dump does not change
the returned triple, so it is not modelled. -/
def run_stimpl (fuel : Nat) (program : Expr) : EvalResult :=
  evaluate fuel program .EmptyState

mutual

/-- An expression containing no Assign and no Print node (the side-effect
free fragment of the language, spec section 8's purity property). -/
def pure_expr : Expr → Bool
  | .Ren => true
  | .IntLiteral _ => true
  | .FloatingPointLiteral _ => true
  | .StringLiteral _ => true
  | .BooleanLiteral _ => true
  | .Print _ => false
  | .Sequence es => pure_list es
  | .Program es => pure_list es
  | .Variable _ => true
  | .Assign _ _ => false
  | .Add l r => pure_expr l && pure_expr r
  | .Subtract l r => pure_expr l && pure_expr r
  | .Multiply l r => pure_expr l && pure_expr r
  | .Divide l r => pure_expr l && pure_expr r
  | .And l r => pure_expr l && pure_expr r
  | .Or l r => pure_expr l && pure_expr r
  | .Not e => pure_expr e
  | .If c tb fb => pure_expr c && pure_expr tb && pure_expr fb
  | .Lt l r => pure_expr l && pure_expr r
  | .Lte l r => pure_expr l && pure_expr r
  | .Gt l r => pure_expr l && pure_expr r
  | .Gte l r => pure_expr l && pure_expr r
  | .Eq l r => pure_expr l && pure_expr r
  | .Ne l r => pure_expr l && pure_expr r
  | .While c b => pure_expr c && pure_expr b
  | .UnknownExpr => true
termination_by e => sizeOf e

def pure_list : List Expr → Bool
  | [] => true
  | e :: rest => pure_expr e && pure_list rest
termination_by es => sizeOf es

end

/-- The environment chain s1 extends the chain s: s is reachable from s1
by peeling off zero or more head nodes.  This is the spec's extend-only
invariant: chains only grow by prepending new head nodes. -/
inductive State.Extends : State → State → Prop
  | refl (s : State) : State.Extends s s
  | step (n : String) (v : Value) (t : Ty) {s1 s : State} :
      State.Extends s1 s → State.Extends (State.mk n v t s1) s

theorem State.Extends.trans {s3 s2 s1 : State}
    (h1 : State.Extends s3 s2) (h2 : State.Extends s2 s1) : State.Extends s3 s1 := by
  induction h1 with
  | refl => exact h2
  | step n v t h ih => exact .step n v t (ih h2)

/-- Inversion for `prependOut`: only a successful result stays
successful, with the prefix stripped off its output. -/
theorem prependOut_ok {r : EvalResult} {p : List String} {v : Value} {t : Ty}
    {s : State} {o : List String} (h : r.prependOut p = .ok v t s o) :
    ∃ o2, r = .ok v t s o2 ∧ o = p ++ o2 := by
  cases r with
  | ok v2 t2 s2 o2 =>
      simp only [EvalResult.prependOut] at h
      cases h
      exact ⟨o2, rfl, rfl⟩
  | error e o2 => simp [EvalResult.prependOut] at h
  | timeout o2 => simp [EvalResult.prependOut] at h

/-- Inversion for `andThen`: a successful sequencing splits into a
successful first step and a successful continuation, with outputs
concatenated. -/
theorem andThen_ok {r : EvalResult} {f : Value → Ty → State → EvalResult}
    {v : Value} {t : Ty} {s : State} {o : List String}
    (h : r.andThen f = .ok v t s o) :
    ∃ v1 t1 s1 o1 o2, r = .ok v1 t1 s1 o1 ∧ f v1 t1 s1 = .ok v t s o2 ∧ o = o1 ++ o2 := by
  cases r with
  | ok v1 t1 s1 o1 =>
      simp only [EvalResult.andThen] at h
      obtain ⟨o2, h2, rfl⟩ := prependOut_ok h
      exact ⟨v1, t1, s1, o1, o2, rfl, h2, rfl⟩
  | error e o1 => simp [EvalResult.andThen] at h
  | timeout o1 => simp [EvalResult.andThen] at h

example : evaluate 2 (.Divide (.IntLiteral 7) (.IntLiteral 2)) .EmptyState
    = .ok (.VInt 3) .Integer .EmptyState [] := by
  simp [evaluate, EvalResult.andThen, EvalResult.prependOut, pyEqZero]

example : evaluate 2 (.Divide (.IntLiteral 5) (.IntLiteral 0)) .EmptyState
    = .error .InterpMathError [] := by
  simp [evaluate, EvalResult.andThen, EvalResult.prependOut, pyEqZero]

example : evaluate 3 (.While (.BooleanLiteral false) .Ren) .EmptyState
    = .ok .VNone .Unit .EmptyState [] := by
  simp [evaluate, whileLoop, pyTruthy]

example : evaluate 3 (.And (.BooleanLiteral false) (.Print (.BooleanLiteral true))) .EmptyState
    = .ok (.VBool false) .Boolean .EmptyState ["True"] := by
  simp [evaluate, EvalResult.andThen, EvalResult.prependOut, pyTruthy, pyStr]

/-- C1 (counterexample): evaluating an unbound variable does NOT fail
with a kind distinct from the Syntax kind.  The source raises
`InterpSyntaxError` at runtime.py line 105 — exactly the class the
unrecognized-expression fallback raises at line 427 — so the failure of
`Variable "x"` in the empty environment is literally the same result as
the failure of an unrecognized expression kind. -/
theorem variable_unbound_same_error_as_fallback :
    evaluate 1 (.Variable "x") .EmptyState = .error .InterpSyntaxError []
    ∧ evaluate 1 (.Variable "x") .EmptyState = evaluate 1 .UnknownExpr .EmptyState := by
  constructor <;> simp [evaluate, State.get_value]

/-- C1 (amended): evaluating Variable(name) when no binding for name
exists fails, but with the same Syntax error kind (`InterpSyntaxError`)
that is raised for an unrecognized expression kind — the interpreter has
no distinct UnboundName kind. -/
theorem variable_unbound_raises_syntax_kind
    (fuel : Nat) (name : String) (s : State) (h : s.get_value name = none) :
    evaluate (fuel+1) (.Variable name) s = .error .InterpSyntaxError []
    ∧ evaluate (fuel+1) .UnknownExpr s = .error .InterpSyntaxError [] := by
  constructor <;> simp [evaluate, h]

theorem variable_unbound_raises_syntax_kind_witness :
    evaluate 1 (.Variable "y") .EmptyState = .error .InterpSyntaxError []
    ∧ evaluate 1 .UnknownExpr .EmptyState = .error .InterpSyntaxError [] :=
  variable_unbound_raises_syntax_kind 0 "y" .EmptyState (by simp [State.get_value])

/-- C2: whenever both Divide operands evaluate to values of the same
numeric tag and the right value is that tag's zero, evaluation fails
with the DivideByZero kind (`InterpMathError`), for Integer and
FloatingPoint alike. -/
theorem divide_by_zero_error
    (fuel : Nat) (l r : Expr) (s : State) (vl vr : Value) (t : Ty)
    (s1 s2 : State) (o1 o2 : List String)
    (h1 : evaluate fuel l s = .ok vl t s1 o1)
    (h2 : evaluate fuel r s1 = .ok vr t s2 o2)
    (hz : (t = .Integer ∧ vr = .VInt 0) ∨ (t = .FloatingPoint ∧ vr = .VFloat 0)) :
    evaluate (fuel+1) (.Divide l r) s = .error .InterpMathError (o1 ++ o2) := by
  rcases hz with ⟨rfl, rfl⟩ | ⟨rfl, rfl⟩ <;>
    simp [evaluate, h1, h2, EvalResult.andThen, EvalResult.prependOut, pyEqZero]

theorem divide_by_zero_error_witness :
    evaluate 2 (.Divide (.IntLiteral 5) (.IntLiteral 0)) .EmptyState
      = .error .InterpMathError []
    ∧ evaluate 2 (.Divide (.FloatingPointLiteral 5) (.FloatingPointLiteral 0)) .EmptyState
      = .error .InterpMathError [] := by
  constructor
  · simpa using divide_by_zero_error 1 (.IntLiteral 5) (.IntLiteral 0) .EmptyState
      (.VInt 5) (.VInt 0) .Integer .EmptyState .EmptyState [] []
      (by simp [evaluate]) (by simp [evaluate]) (Or.inl ⟨rfl, rfl⟩)
  · simpa using divide_by_zero_error 1 (.FloatingPointLiteral 5) (.FloatingPointLiteral 0)
      .EmptyState (.VFloat 5) (.VFloat 0) .FloatingPoint .EmptyState .EmptyState [] []
      (by simp [evaluate]) (by simp [evaluate]) (Or.inr ⟨rfl, rfl⟩)

/-- C4: assignment type stability.  Binding a name for the first time
succeeds with any tag; rebinding with a different tag fails with the
TypeMismatch kind (`InterpTypeError`); rebinding with the same tag
succeeds, extends the environment with the new binding, and a subsequent
lookup returns the new value. -/
theorem assign_type_stability :
    (∀ (fuel : Nat) (name : String) (ve : Expr) (s : State) (v : Value) (t : Ty)
        (s1 : State) (o : List String),
      evaluate fuel ve s = .ok v t s1 o →
      s1.get_value name = none →
      evaluate (fuel+1) (.Assign name ve) s = .ok v t (s1.set_value name v t) o)
    ∧ (∀ (fuel : Nat) (name : String) (ve : Expr) (s : State) (v v0 : Value) (t t0 : Ty)
        (s1 : State) (o : List String),
      evaluate fuel ve s = .ok v t s1 o →
      s1.get_value name = some (v0, t0) →
      t0 ≠ t →
      evaluate (fuel+1) (.Assign name ve) s = .error .InterpTypeError o)
    ∧ (∀ (fuel : Nat) (name : String) (ve : Expr) (s : State) (v v0 : Value) (t : Ty)
        (s1 : State) (o : List String),
      evaluate fuel ve s = .ok v t s1 o →
      s1.get_value name = some (v0, t) →
      evaluate (fuel+1) (.Assign name ve) s = .ok v t (s1.set_value name v t) o
      ∧ (s1.set_value name v t).get_value name = some (v, t)) := by
  refine ⟨?_, ?_, ?_⟩
  · intro fuel name ve s v t s1 o h1 hlook
    simp [evaluate, h1, hlook, EvalResult.andThen, EvalResult.prependOut]
  · intro fuel name ve s v v0 t t0 s1 o h1 hlook hne
    have hne' : t ≠ t0 := fun h => hne h.symm
    simp [evaluate, h1, hlook, hne', EvalResult.andThen, EvalResult.prependOut]
  · intro fuel name ve s v v0 t s1 o h1 hlook
    constructor
    · simp [evaluate, h1, hlook, EvalResult.andThen, EvalResult.prependOut]
    · simp [State.set_value, State.get_value]

theorem assign_type_stability_witness :
    evaluate 2 (.Assign "x" (.IntLiteral 1)) .EmptyState
      = .ok (.VInt 1) .Integer (.mk "x" (.VInt 1) .Integer .EmptyState) []
    ∧ evaluate 2 (.Assign "x" (.BooleanLiteral true)) (.mk "x" (.VInt 1) .Integer .EmptyState)
      = .error .InterpTypeError []
    ∧ evaluate 2 (.Assign "x" (.IntLiteral 2)) (.mk "x" (.VInt 1) .Integer .EmptyState)
      = .ok (.VInt 2) .Integer
          (.mk "x" (.VInt 2) .Integer (.mk "x" (.VInt 1) .Integer .EmptyState)) [] := by
  refine ⟨?_, ?_, ?_⟩
  · simpa [State.set_value] using assign_type_stability.1 1 "x" (.IntLiteral 1) .EmptyState
      (.VInt 1) .Integer .EmptyState [] (by simp [evaluate]) (by simp [State.get_value])
  · simpa using assign_type_stability.2.1 1 "x" (.BooleanLiteral true)
      (.mk "x" (.VInt 1) .Integer .EmptyState) (.VBool true) (.VInt 1) .Boolean .Integer
      (.mk "x" (.VInt 1) .Integer .EmptyState) []
      (by simp [evaluate]) (by simp [State.get_value]) (by simp)
  · simpa [State.set_value] using (assign_type_stability.2.2 1 "x" (.IntLiteral 2)
      (.mk "x" (.VInt 1) .Integer .EmptyState) (.VInt 2) (.VInt 1) .Integer
      (.mk "x" (.VInt 1) .Integer .EmptyState) []
      (by simp [evaluate]) (by simp [State.get_value])).1

/-- C10: binding a variable to the unit value does not make it appear
absent.  Whenever `Assign(x, Ren)` succeeds, a subsequent `Variable(x)`
lookup in the resulting environment succeeds with (None, Unit) and
leaves that environment unchanged — lookup distinguishes "bound to the
none value" from "absent". -/
theorem assign_unit_binding_lookup
    (fuel : Nat) (name : String) (s : State) (v : Value) (t : Ty)
    (s1 : State) (o : List String)
    (h : evaluate fuel (.Assign name .Ren) s = .ok v t s1 o) :
    ∀ fuel2 : Nat, evaluate (fuel2+1) (.Variable name) s1 = .ok .VNone .Unit s1 [] := by
  intro fuel2
  match fuel, h with
  | f+2, h =>
    have hr : evaluate (f+1) .Ren s = .ok .VNone .Unit s [] := by simp [evaluate]
    simp only [evaluate, hr, EvalResult.andThen] at h
    obtain ⟨o2, h, rfl⟩ := prependOut_ok h
    cases hlook : State.get_value s name with
    | none =>
        rw [hlook] at h
        try dsimp only at h
        cases h
        simp [evaluate, State.set_value, State.get_value]
    | some p =>
        obtain ⟨v0, t0⟩ := p
        rw [hlook] at h
        try dsimp only at h
        by_cases ht : Ty.Unit ≠ t0
        · rw [if_pos ht] at h; cases h
        · rw [if_neg ht] at h
          cases h
          simp [evaluate, State.set_value, State.get_value]
  | 0, h => simp [evaluate] at h
  | 1, h => simp [evaluate, EvalResult.andThen] at h

theorem assign_unit_binding_lookup_witness :
    evaluate 1 (.Variable "x") (.mk "x" .VNone .Unit .EmptyState)
      = .ok .VNone .Unit (.mk "x" .VNone .Unit .EmptyState) [] := by
  simpa using assign_unit_binding_lookup 2 "x" .EmptyState .VNone .Unit
    (.mk "x" .VNone .Unit .EmptyState) []
    (by simp [evaluate, EvalResult.andThen, EvalResult.prependOut, State.get_value,
      State.set_value]) 0

/-- Negating both operands leaves floor division unchanged (helper for
relating Python's // to the rational floor). -/
theorem neg_fdiv_neg : ∀ a b : Int, Int.fdiv (-a) (-b) = Int.fdiv a b
  | .ofNat 0, _ => by simp
  | .ofNat (m+1), .ofNat 0 => by simp
  | .negSucc m, .ofNat 0 => by simp
  | .ofNat (m+1), .ofNat (n+1) => rfl
  | .ofNat (m+1), .negSucc n => rfl
  | .negSucc m, .ofNat (n+1) => rfl
  | .negSucc m, .negSucc n => rfl

theorem int_fdiv_eq_floor_aux (x d : Int) (hd0 : 0 < d) :
    Int.fdiv x d = ⌊(x : ℚ) / (d : ℚ)⌋ := by
  rw [Int.fdiv_eq_ediv x hd0.le]
  obtain ⟨n, rfl⟩ : ∃ n : ℕ, d = (n : ℤ) := ⟨d.toNat, (Int.toNat_of_nonneg hd0.le).symm⟩
  rw [show (((n : ℤ) : ℚ)) = (n : ℚ) by push_cast; rfl]
  exact (Rat.floor_intCast_div_natCast x n).symm

/-- Int.fdiv — Python's // — is the floor of the exact rational
quotient, for every nonzero divisor, negatives included. -/
theorem int_fdiv_eq_floor (a b : Int) (hb : b ≠ 0) :
    Int.fdiv a b = ⌊(a : ℚ) / (b : ℚ)⌋ := by
  rcases lt_or_gt_of_ne hb with hneg | hpos
  · rw [← neg_fdiv_neg a b, int_fdiv_eq_floor_aux (-a) (-b) (by omega)]
    congr 1
    push_cast
    rw [neg_div_neg_eq]
  · exact int_fdiv_eq_floor_aux a b hpos

/-- C6: Divide with equal tags and a nonzero right value: Integer
division is floor division (the result is the floor of the exact
quotient, for all integers including negatives) and FloatingPoint
division is exact division of the modelled rationals. -/
theorem divide_division_semantics :
    (∀ (fuel : Nat) (l r : Expr) (s : State) (a b : Int) (s1 s2 : State)
        (o1 o2 : List String),
      evaluate fuel l s = .ok (.VInt a) .Integer s1 o1 →
      evaluate fuel r s1 = .ok (.VInt b) .Integer s2 o2 →
      b ≠ 0 →
      evaluate (fuel+1) (.Divide l r) s
          = .ok (.VInt (Int.fdiv a b)) .Integer s2 (o1 ++ o2)
      ∧ Int.fdiv a b = ⌊(a : ℚ) / (b : ℚ)⌋)
    ∧ (∀ (fuel : Nat) (l r : Expr) (s : State) (p q : Rat) (s1 s2 : State)
        (o1 o2 : List String),
      evaluate fuel l s = .ok (.VFloat p) .FloatingPoint s1 o1 →
      evaluate fuel r s1 = .ok (.VFloat q) .FloatingPoint s2 o2 →
      q ≠ 0 →
      evaluate (fuel+1) (.Divide l r) s
          = .ok (.VFloat (p / q)) .FloatingPoint s2 (o1 ++ o2)) := by
  constructor
  · intro fuel l r s a b s1 s2 o1 o2 h1 h2 hb
    refine ⟨?_, int_fdiv_eq_floor a b hb⟩
    simp [evaluate, h1, h2, EvalResult.andThen, EvalResult.prependOut, pyEqZero, hb]
  · intro fuel l r s p q s1 s2 o1 o2 h1 h2 hq
    simp [evaluate, h1, h2, EvalResult.andThen, EvalResult.prependOut, pyEqZero, hq]

theorem divide_division_semantics_witness :
    evaluate 2 (.Divide (.IntLiteral 7) (.IntLiteral 2)) .EmptyState
      = .ok (.VInt 3) .Integer .EmptyState []
    ∧ evaluate 2 (.Divide (.FloatingPointLiteral 7) (.FloatingPointLiteral 2)) .EmptyState
      = .ok (.VFloat 3.5) .FloatingPoint .EmptyState [] := by
  constructor
  · have h := (divide_division_semantics.1 1 (.IntLiteral 7) (.IntLiteral 2) .EmptyState
      7 2 .EmptyState .EmptyState [] []
      (by simp [evaluate]) (by simp [evaluate]) (by norm_num)).1
    have h32 : Int.fdiv 7 2 = 3 := by decide
    simpa [h32] using h
  · have h := divide_division_semantics.2 1 (.FloatingPointLiteral 7) (.FloatingPointLiteral 2)
      .EmptyState 7 2 .EmptyState .EmptyState [] []
      (by simp [evaluate]) (by simp [evaluate]) (by norm_num)
    have h35 : (7 : Rat) / 2 = 3.5 := by norm_num
    simpa [h35] using h

/-- C5: And and Or always evaluate both operands, threading the
environment left to right and keeping both operands' print output, and
only then apply the logical operation (no short-circuiting); when either
operand's tag is not Boolean the result is the TypeMismatch kind. -/
theorem and_or_no_short_circuit :
    (∀ (fuel : Nat) (l r : Expr) (s : State) (a b : Bool) (s1 s2 : State)
        (o1 o2 : List String),
      evaluate fuel l s = .ok (.VBool a) .Boolean s1 o1 →
      evaluate fuel r s1 = .ok (.VBool b) .Boolean s2 o2 →
      evaluate (fuel+1) (.And l r) s = .ok (.VBool (a && b)) .Boolean s2 (o1 ++ o2))
    ∧ (∀ (fuel : Nat) (l r : Expr) (s : State) (a b : Bool) (s1 s2 : State)
        (o1 o2 : List String),
      evaluate fuel l s = .ok (.VBool a) .Boolean s1 o1 →
      evaluate fuel r s1 = .ok (.VBool b) .Boolean s2 o2 →
      evaluate (fuel+1) (.Or l r) s = .ok (.VBool (a || b)) .Boolean s2 (o1 ++ o2))
    ∧ (∀ (fuel : Nat) (l r : Expr) (s : State) (vl vr : Value) (tl tr : Ty)
        (s1 s2 : State) (o1 o2 : List String),
      evaluate fuel l s = .ok vl tl s1 o1 →
      evaluate fuel r s1 = .ok vr tr s2 o2 →
      ¬(tl = .Boolean ∧ tr = .Boolean) →
      evaluate (fuel+1) (.And l r) s = .error .InterpTypeError (o1 ++ o2)
      ∧ evaluate (fuel+1) (.Or l r) s = .error .InterpTypeError (o1 ++ o2)) := by
  refine ⟨?_, ?_, ?_⟩
  · intro fuel l r s a b s1 s2 o1 o2 h1 h2
    simp only [evaluate, h1, h2, EvalResult.andThen, EvalResult.prependOut]
    cases a <;> cases b <;> simp [pyTruthy]
  · intro fuel l r s a b s1 s2 o1 o2 h1 h2
    simp only [evaluate, h1, h2, EvalResult.andThen, EvalResult.prependOut]
    cases a <;> cases b <;> simp [pyTruthy]
  · intro fuel l r s vl vr tl tr s1 s2 o1 o2 h1 h2 hnb
    by_cases he : tl = tr
    · subst he
      have hne : tl ≠ .Boolean := fun h => hnb ⟨h, h⟩
      constructor <;>
        · simp only [evaluate, h1, h2, EvalResult.andThen, EvalResult.prependOut]
          cases tl <;> simp_all
    · constructor <;> simp [evaluate, h1, h2, EvalResult.andThen, EvalResult.prependOut, he]

theorem and_or_no_short_circuit_witness :
    evaluate 3 (.And (.BooleanLiteral false) (.Print (.BooleanLiteral true))) .EmptyState
      = .ok (.VBool false) .Boolean .EmptyState ["True"] := by
  have h := and_or_no_short_circuit.1 2 (.BooleanLiteral false)
    (.Print (.BooleanLiteral true)) .EmptyState false true .EmptyState .EmptyState [] ["True"]
    (by simp [evaluate])
    (by simp [evaluate, EvalResult.andThen, EvalResult.prependOut, pyStr])
  simpa using h

/-- C8: comparisons of two Unit-tagged operands: Lt and Gt are false,
Lte, Gte and Eq are true, Ne is false; every comparison carries tag
Boolean and returns the environment produced by evaluating the two
operands. -/
theorem unit_comparison_semantics
    (fuel : Nat) (l r : Expr) (s : State) (vl vr : Value) (s1 s2 : State)
    (o1 o2 : List String)
    (h1 : evaluate fuel l s = .ok vl .Unit s1 o1)
    (h2 : evaluate fuel r s1 = .ok vr .Unit s2 o2) :
    evaluate (fuel+1) (.Lt l r) s = .ok (.VBool false) .Boolean s2 (o1 ++ o2)
    ∧ evaluate (fuel+1) (.Lte l r) s = .ok (.VBool true) .Boolean s2 (o1 ++ o2)
    ∧ evaluate (fuel+1) (.Gt l r) s = .ok (.VBool false) .Boolean s2 (o1 ++ o2)
    ∧ evaluate (fuel+1) (.Gte l r) s = .ok (.VBool true) .Boolean s2 (o1 ++ o2)
    ∧ evaluate (fuel+1) (.Eq l r) s = .ok (.VBool true) .Boolean s2 (o1 ++ o2)
    ∧ evaluate (fuel+1) (.Ne l r) s = .ok (.VBool false) .Boolean s2 (o1 ++ o2) := by
  refine ⟨?_, ?_, ?_, ?_, ?_, ?_⟩ <;>
    simp [evaluate, h1, h2, EvalResult.andThen, EvalResult.prependOut]

theorem unit_comparison_semantics_witness :
    evaluate 2 (.Eq .Ren .Ren) .EmptyState = .ok (.VBool true) .Boolean .EmptyState []
    ∧ evaluate 2 (.Lt .Ren .Ren) .EmptyState = .ok (.VBool false) .Boolean .EmptyState [] := by
  have h := unit_comparison_semantics 1 .Ren .Ren .EmptyState .VNone .VNone
    .EmptyState .EmptyState [] [] (by simp [evaluate]) (by simp [evaluate])
  exact ⟨by simpa using h.2.2.2.2.1, by simpa using h.1⟩

/-- Any successful whileLoop result is either the incoming accumulator
with the incoming state, or exactly the (value, type, state) triple of a
body evaluation — never the state produced by the final (false)
condition check. -/
theorem whileLoop_ok_cases :
    ∀ (fuel : Nat) (c b : Expr) (aV : Value) (aT : Ty) (s : State)
      (v : Value) (t : Ty) (s1 : State) (o : List String),
    whileLoop fuel c b aV aT s = .ok v t s1 o →
    (v = aV ∧ t = aT ∧ s1 = s) ∨ ∃ m sb ob, evaluate m b sb = .ok v t s1 ob := by
  intro fuel
  induction fuel with
  | zero => intro c b aV aT s v t s1 o h; simp [whileLoop] at h
  | succ f ih =>
      intro c b aV aT s v t s1 o h
      simp only [whileLoop] at h
      cases hc : evaluate f c s with
      | ok cv ct sc oc =>
          rw [hc] at h
          try dsimp only at h
          split at h
          · split at h
            · cases hb2 : evaluate f b sc with
              | ok bv bt s2 o2 =>
                  rw [hb2] at h
                  try dsimp only at h
                  obtain ⟨o3, h3, rfl⟩ := prependOut_ok h
                  rcases ih c b bv bt s2 v t s1 o3 h3 with ⟨rfl, rfl, rfl⟩ | hr
                  · exact Or.inr ⟨f, sc, o2, hb2⟩
                  · exact Or.inr hr
              | error e o2 => rw [hb2] at h; simp at h
              | timeout o2 => rw [hb2] at h; simp at h
            · cases h
              exact Or.inl ⟨rfl, rfl, rfl⟩
          · cases h
      | error e oc => rw [hc] at h; simp at h
      | timeout oc => rw [hc] at h; simp at h

/-- C3: While semantics.  A condition that is Boolean false on the very
first check makes the loop return (None, Unit) with the original
environment — the body is never consulted and the extensions made by
that condition check are dropped.  In general a successful While result
is either that zero-iteration triple or exactly the triple recorded from
a body evaluation (in particular its environment is a body-produced
environment, not the final condition check's). -/
theorem while_loop_semantics :
    (∀ (fuel : Nat) (c b : Expr) (s sc : State) (o : List String),
      evaluate fuel c s = .ok (.VBool false) .Boolean sc o →
      evaluate (fuel+2) (.While c b) s = .ok .VNone .Unit s o)
    ∧ (∀ (fuel : Nat) (c b : Expr) (s : State) (v : Value) (t : Ty)
        (s1 : State) (o : List String),
      evaluate fuel (.While c b) s = .ok v t s1 o →
      (v = .VNone ∧ t = .Unit ∧ s1 = s)
      ∨ ∃ m sb ob, evaluate m b sb = .ok v t s1 ob) := by
  constructor
  · intro fuel c b s sc o h
    show evaluate (fuel+1+1) (.While c b) s = .ok .VNone .Unit s o
    simp [evaluate, whileLoop, h, pyTruthy]
  · intro fuel c b s v t s1 o h
    cases fuel with
    | zero => simp [evaluate] at h
    | succ f =>
        simp only [evaluate] at h
        exact whileLoop_ok_cases f c b .VNone .Unit s v t s1 o h

theorem while_loop_semantics_witness :
    evaluate 3 (.While (.BooleanLiteral false) (.Assign "x" (.IntLiteral 1))) .EmptyState
      = .ok .VNone .Unit .EmptyState [] := by
  have h := while_loop_semantics.1 1 (.BooleanLiteral false) (.Assign "x" (.IntLiteral 1))
    .EmptyState .EmptyState [] (by simp [evaluate])
  simpa using h

/-- Joint structural invariant of the evaluator, by induction on fuel:
a successful evaluation returns an environment that extends the input
environment (the input chain is a suffix, nodes are only prepended), and
when the expression contains no Assign and no Print it returns the input
environment itself. -/
theorem state_invariant :
    ∀ fuel : Nat,
    (∀ (e : Expr) (s : State) (v : Value) (t : Ty) (s1 : State) (o : List String),
      evaluate fuel e s = .ok v t s1 o →
      State.Extends s1 s ∧ (pure_expr e = true → s1 = s))
    ∧ (∀ (es : List Expr) (aV : Value) (aT : Ty) (s : State) (v : Value) (t : Ty)
        (s1 : State) (o : List String),
      evalSeq fuel es aV aT s = .ok v t s1 o →
      State.Extends s1 s ∧ (pure_list es = true → s1 = s))
    ∧ (∀ (c b : Expr) (aV : Value) (aT : Ty) (s : State) (v : Value) (t : Ty)
        (s1 : State) (o : List String),
      whileLoop fuel c b aV aT s = .ok v t s1 o →
      State.Extends s1 s ∧ (pure_expr c = true → pure_expr b = true → s1 = s)) := by
  intro fuel
  induction fuel with
  | zero =>
      refine ⟨?_, ?_, ?_⟩
      · intro e s v t s1 o h; simp [evaluate] at h
      · intro es aV aT s v t s1 o h
        cases es with
        | nil =>
            simp only [evalSeq] at h
            cases h
            exact ⟨.refl _, fun _ => rfl⟩
        | cons e rest => simp [evalSeq, evaluate] at h
      · intro c b aV aT s v t s1 o h; simp [whileLoop] at h
  | succ f ih =>
      obtain ⟨ihE, ihS, ihW⟩ := ih
      have hE : ∀ (e : Expr) (s : State) (v : Value) (t : Ty) (s1 : State)
          (o : List String), evaluate (f+1) e s = .ok v t s1 o →
          State.Extends s1 s ∧ (pure_expr e = true → s1 = s) := by
        intro e s v t s1 o h
        cases e with
        | Ren =>
            simp only [evaluate] at h; cases h; exact ⟨.refl _, fun _ => rfl⟩
        | IntLiteral l =>
            simp only [evaluate] at h; cases h; exact ⟨.refl _, fun _ => rfl⟩
        | FloatingPointLiteral l =>
            simp only [evaluate] at h; cases h; exact ⟨.refl _, fun _ => rfl⟩
        | StringLiteral l =>
            simp only [evaluate] at h; cases h; exact ⟨.refl _, fun _ => rfl⟩
        | BooleanLiteral l =>
            simp only [evaluate] at h; cases h; exact ⟨.refl _, fun _ => rfl⟩
        | UnknownExpr => simp [evaluate] at h
        | Variable name =>
            simp only [evaluate] at h
            cases hg : State.get_value s name with
            | none => rw [hg] at h; simp at h
            | some p =>
                obtain ⟨v0, t0⟩ := p
                rw [hg] at h
                try dsimp only at h
                cases h
                exact ⟨.refl _, fun _ => rfl⟩
        | Print e1 =>
            simp only [evaluate] at h
            obtain ⟨v1, t1, s2, o1, o2, h1, h2, rfl⟩ := andThen_ok h
            obtain ⟨hx, _⟩ := ihE e1 s v1 t1 s2 o1 h1
            try dsimp only at h2
            have hs : s1 = s2 := by
              split at h2 <;> (cases h2 <;> rfl)
            subst hs
            exact ⟨hx, fun hpp => by simp [pure_expr] at hpp⟩
        | Sequence es =>
            simp only [evaluate] at h
            obtain ⟨hx, hp⟩ := ihS es .VNone .Unit s v t s1 o h
            exact ⟨hx, fun hpp => hp (by simpa [pure_expr] using hpp)⟩
        | Program es =>
            simp only [evaluate] at h
            obtain ⟨hx, hp⟩ := ihS es .VNone .Unit s v t s1 o h
            exact ⟨hx, fun hpp => hp (by simpa [pure_expr] using hpp)⟩
        | Assign name ve =>
            simp only [evaluate] at h
            obtain ⟨v1, t1, s2, o1, o2, h1, h2, rfl⟩ := andThen_ok h
            obtain ⟨hx, _⟩ := ihE ve s v1 t1 s2 o1 h1
            try dsimp only at h2
            cases hg : State.get_value s2 name with
            | none =>
                rw [hg] at h2
                try dsimp only at h2
                cases h2
                exact ⟨.step _ _ _ hx, fun hpp => by simp [pure_expr] at hpp⟩
            | some p =>
                obtain ⟨v0, t0⟩ := p
                rw [hg] at h2
                try dsimp only at h2
                split at h2
                · cases h2
                · cases h2
                  exact ⟨.step _ _ _ hx, fun hpp => by simp [pure_expr] at hpp⟩
        | Add l r =>
            simp only [evaluate] at h
            obtain ⟨lv, lt, s2, o1, o2, h1, h2, rfl⟩ := andThen_ok h
            try dsimp only at h2
            obtain ⟨rv, rt, s3, o3, o4, h3, h4, rfl⟩ := andThen_ok h2
            obtain ⟨hx1, hp1⟩ := ihE _ _ _ _ _ _ h1
            obtain ⟨hx2, hp2⟩ := ihE _ _ _ _ _ _ h3
            try dsimp only at h4
            have hs : s1 = s3 := by
              split at h4
              · cases h4
              · split at h4 <;> (cases h4 <;> rfl)
            subst hs
            refine ⟨hx2.trans hx1, fun hpp => ?_⟩
            obtain ⟨hl, hr⟩ : pure_expr l = true ∧ pure_expr r = true := by
              simpa [pure_expr, Bool.and_eq_true] using hpp
            rw [hp2 hr, hp1 hl]
        | Subtract l r =>
            simp only [evaluate] at h
            obtain ⟨lv, lt, s2, o1, o2, h1, h2, rfl⟩ := andThen_ok h
            try dsimp only at h2
            obtain ⟨rv, rt, s3, o3, o4, h3, h4, rfl⟩ := andThen_ok h2
            obtain ⟨hx1, hp1⟩ := ihE _ _ _ _ _ _ h1
            obtain ⟨hx2, hp2⟩ := ihE _ _ _ _ _ _ h3
            try dsimp only at h4
            have hs : s1 = s3 := by
              split at h4
              · cases h4
              · split at h4 <;> (cases h4 <;> rfl)
            subst hs
            refine ⟨hx2.trans hx1, fun hpp => ?_⟩
            obtain ⟨hl, hr⟩ : pure_expr l = true ∧ pure_expr r = true := by
              simpa [pure_expr, Bool.and_eq_true] using hpp
            rw [hp2 hr, hp1 hl]
        | Multiply l r =>
            simp only [evaluate] at h
            obtain ⟨lv, lt, s2, o1, o2, h1, h2, rfl⟩ := andThen_ok h
            try dsimp only at h2
            obtain ⟨rv, rt, s3, o3, o4, h3, h4, rfl⟩ := andThen_ok h2
            obtain ⟨hx1, hp1⟩ := ihE _ _ _ _ _ _ h1
            obtain ⟨hx2, hp2⟩ := ihE _ _ _ _ _ _ h3
            try dsimp only at h4
            have hs : s1 = s3 := by
              split at h4
              · cases h4
              · split at h4 <;> (cases h4 <;> rfl)
            subst hs
            refine ⟨hx2.trans hx1, fun hpp => ?_⟩
            obtain ⟨hl, hr⟩ : pure_expr l = true ∧ pure_expr r = true := by
              simpa [pure_expr, Bool.and_eq_true] using hpp
            rw [hp2 hr, hp1 hl]
        | Divide l r =>
            simp only [evaluate] at h
            obtain ⟨lv, lt, s2, o1, o2, h1, h2, rfl⟩ := andThen_ok h
            try dsimp only at h2
            obtain ⟨rv, rt, s3, o3, o4, h3, h4, rfl⟩ := andThen_ok h2
            obtain ⟨hx1, hp1⟩ := ihE _ _ _ _ _ _ h1
            obtain ⟨hx2, hp2⟩ := ihE _ _ _ _ _ _ h3
            try dsimp only at h4
            have hs : s1 = s3 := by
              split at h4
              · cases h4
              · split at h4
                · cases h4
                · split at h4 <;> (cases h4 <;> rfl)
            subst hs
            refine ⟨hx2.trans hx1, fun hpp => ?_⟩
            obtain ⟨hl, hr⟩ : pure_expr l = true ∧ pure_expr r = true := by
              simpa [pure_expr, Bool.and_eq_true] using hpp
            rw [hp2 hr, hp1 hl]
        | And l r =>
            simp only [evaluate] at h
            obtain ⟨lv, lt, s2, o1, o2, h1, h2, rfl⟩ := andThen_ok h
            try dsimp only at h2
            obtain ⟨rv, rt, s3, o3, o4, h3, h4, rfl⟩ := andThen_ok h2
            obtain ⟨hx1, hp1⟩ := ihE _ _ _ _ _ _ h1
            obtain ⟨hx2, hp2⟩ := ihE _ _ _ _ _ _ h3
            try dsimp only at h4
            have hs : s1 = s3 := by
              split at h4
              · cases h4
              · split at h4 <;> (cases h4 <;> rfl)
            subst hs
            refine ⟨hx2.trans hx1, fun hpp => ?_⟩
            obtain ⟨hl, hr⟩ : pure_expr l = true ∧ pure_expr r = true := by
              simpa [pure_expr, Bool.and_eq_true] using hpp
            rw [hp2 hr, hp1 hl]
        | Or l r =>
            simp only [evaluate] at h
            obtain ⟨lv, lt, s2, o1, o2, h1, h2, rfl⟩ := andThen_ok h
            try dsimp only at h2
            obtain ⟨rv, rt, s3, o3, o4, h3, h4, rfl⟩ := andThen_ok h2
            obtain ⟨hx1, hp1⟩ := ihE _ _ _ _ _ _ h1
            obtain ⟨hx2, hp2⟩ := ihE _ _ _ _ _ _ h3
            try dsimp only at h4
            have hs : s1 = s3 := by
              split at h4
              · cases h4
              · split at h4 <;> (cases h4 <;> rfl)
            subst hs
            refine ⟨hx2.trans hx1, fun hpp => ?_⟩
            obtain ⟨hl, hr⟩ : pure_expr l = true ∧ pure_expr r = true := by
              simpa [pure_expr, Bool.and_eq_true] using hpp
            rw [hp2 hr, hp1 hl]
        | Not e1 =>
            simp only [evaluate] at h
            obtain ⟨v1, t1, s2, o1, o2, h1, h2, rfl⟩ := andThen_ok h
            obtain ⟨hx, hp⟩ := ihE e1 s v1 t1 s2 o1 h1
            try dsimp only at h2
            have hs : s1 = s2 := by
              split at h2 <;> (cases h2 <;> rfl)
            subst hs
            exact ⟨hx, fun hpp => hp (by simpa [pure_expr] using hpp)⟩
        | If c tb fb =>
            simp only [evaluate] at h
            obtain ⟨cv, ct, s2, o1, o2, h1, h2, rfl⟩ := andThen_ok h
            obtain ⟨hx1, hp1⟩ := ihE c s cv ct s2 o1 h1
            try dsimp only at h2
            split at h2
            · split at h2
              · obtain ⟨hx2, hp2⟩ := ihE _ _ _ _ _ _ h2
                refine ⟨hx2.trans hx1, fun hpp => ?_⟩
                obtain ⟨⟨hc, htb⟩, hfb⟩ :
                    (pure_expr c = true ∧ pure_expr tb = true) ∧ pure_expr fb = true := by
                  simpa [pure_expr, Bool.and_eq_true] using hpp
                rw [hp2 htb, hp1 hc]
              · obtain ⟨hx2, hp2⟩ := ihE _ _ _ _ _ _ h2
                refine ⟨hx2.trans hx1, fun hpp => ?_⟩
                obtain ⟨⟨hc, htb⟩, hfb⟩ :
                    (pure_expr c = true ∧ pure_expr tb = true) ∧ pure_expr fb = true := by
                  simpa [pure_expr, Bool.and_eq_true] using hpp
                rw [hp2 hfb, hp1 hc]
            · cases h2
        | Lt l r =>
            simp only [evaluate] at h
            obtain ⟨lv, lt, s2, o1, o2, h1, h2, rfl⟩ := andThen_ok h
            try dsimp only at h2
            obtain ⟨rv, rt, s3, o3, o4, h3, h4, rfl⟩ := andThen_ok h2
            obtain ⟨hx1, hp1⟩ := ihE _ _ _ _ _ _ h1
            obtain ⟨hx2, hp2⟩ := ihE _ _ _ _ _ _ h3
            try dsimp only at h4
            have hs : s1 = s3 := by
              split at h4
              · cases h4
              · split at h4 <;> (cases h4 <;> rfl)
            subst hs
            refine ⟨hx2.trans hx1, fun hpp => ?_⟩
            obtain ⟨hl, hr⟩ : pure_expr l = true ∧ pure_expr r = true := by
              simpa [pure_expr, Bool.and_eq_true] using hpp
            rw [hp2 hr, hp1 hl]
        | Lte l r =>
            simp only [evaluate] at h
            obtain ⟨lv, lt, s2, o1, o2, h1, h2, rfl⟩ := andThen_ok h
            try dsimp only at h2
            obtain ⟨rv, rt, s3, o3, o4, h3, h4, rfl⟩ := andThen_ok h2
            obtain ⟨hx1, hp1⟩ := ihE _ _ _ _ _ _ h1
            obtain ⟨hx2, hp2⟩ := ihE _ _ _ _ _ _ h3
            try dsimp only at h4
            have hs : s1 = s3 := by
              split at h4
              · cases h4
              · split at h4 <;> (cases h4 <;> rfl)
            subst hs
            refine ⟨hx2.trans hx1, fun hpp => ?_⟩
            obtain ⟨hl, hr⟩ : pure_expr l = true ∧ pure_expr r = true := by
              simpa [pure_expr, Bool.and_eq_true] using hpp
            rw [hp2 hr, hp1 hl]
        | Gt l r =>
            simp only [evaluate] at h
            obtain ⟨lv, lt, s2, o1, o2, h1, h2, rfl⟩ := andThen_ok h
            try dsimp only at h2
            obtain ⟨rv, rt, s3, o3, o4, h3, h4, rfl⟩ := andThen_ok h2
            obtain ⟨hx1, hp1⟩ := ihE _ _ _ _ _ _ h1
            obtain ⟨hx2, hp2⟩ := ihE _ _ _ _ _ _ h3
            try dsimp only at h4
            have hs : s1 = s3 := by
              split at h4
              · cases h4
              · split at h4 <;> (cases h4 <;> rfl)
            subst hs
            refine ⟨hx2.trans hx1, fun hpp => ?_⟩
            obtain ⟨hl, hr⟩ : pure_expr l = true ∧ pure_expr r = true := by
              simpa [pure_expr, Bool.and_eq_true] using hpp
            rw [hp2 hr, hp1 hl]
        | Gte l r =>
            simp only [evaluate] at h
            obtain ⟨lv, lt, s2, o1, o2, h1, h2, rfl⟩ := andThen_ok h
            try dsimp only at h2
            obtain ⟨rv, rt, s3, o3, o4, h3, h4, rfl⟩ := andThen_ok h2
            obtain ⟨hx1, hp1⟩ := ihE _ _ _ _ _ _ h1
            obtain ⟨hx2, hp2⟩ := ihE _ _ _ _ _ _ h3
            try dsimp only at h4
            have hs : s1 = s3 := by
              split at h4
              · cases h4
              · split at h4 <;> (cases h4 <;> rfl)
            subst hs
            refine ⟨hx2.trans hx1, fun hpp => ?_⟩
            obtain ⟨hl, hr⟩ : pure_expr l = true ∧ pure_expr r = true := by
              simpa [pure_expr, Bool.and_eq_true] using hpp
            rw [hp2 hr, hp1 hl]
        | Eq l r =>
            simp only [evaluate] at h
            obtain ⟨lv, lt, s2, o1, o2, h1, h2, rfl⟩ := andThen_ok h
            try dsimp only at h2
            obtain ⟨rv, rt, s3, o3, o4, h3, h4, rfl⟩ := andThen_ok h2
            obtain ⟨hx1, hp1⟩ := ihE _ _ _ _ _ _ h1
            obtain ⟨hx2, hp2⟩ := ihE _ _ _ _ _ _ h3
            try dsimp only at h4
            have hs : s1 = s3 := by
              split at h4
              · cases h4
              · split at h4 <;> (cases h4 <;> rfl)
            subst hs
            refine ⟨hx2.trans hx1, fun hpp => ?_⟩
            obtain ⟨hl, hr⟩ : pure_expr l = true ∧ pure_expr r = true := by
              simpa [pure_expr, Bool.and_eq_true] using hpp
            rw [hp2 hr, hp1 hl]
        | Ne l r =>
            simp only [evaluate] at h
            obtain ⟨lv, lt, s2, o1, o2, h1, h2, rfl⟩ := andThen_ok h
            try dsimp only at h2
            obtain ⟨rv, rt, s3, o3, o4, h3, h4, rfl⟩ := andThen_ok h2
            obtain ⟨hx1, hp1⟩ := ihE _ _ _ _ _ _ h1
            obtain ⟨hx2, hp2⟩ := ihE _ _ _ _ _ _ h3
            try dsimp only at h4
            have hs : s1 = s3 := by
              split at h4
              · cases h4
              · split at h4 <;> (cases h4 <;> rfl)
            subst hs
            refine ⟨hx2.trans hx1, fun hpp => ?_⟩
            obtain ⟨hl, hr⟩ : pure_expr l = true ∧ pure_expr r = true := by
              simpa [pure_expr, Bool.and_eq_true] using hpp
            rw [hp2 hr, hp1 hl]
        | While c b =>
            simp only [evaluate] at h
            obtain ⟨hx, hp⟩ := ihW c b .VNone .Unit s v t s1 o h
            refine ⟨hx, fun hpp => ?_⟩
            obtain ⟨hc, hb⟩ : pure_expr c = true ∧ pure_expr b = true := by
              simpa [pure_expr, Bool.and_eq_true] using hpp
            exact hp hc hb
      have hW : ∀ (c b : Expr) (aV : Value) (aT : Ty) (s : State) (v : Value) (t : Ty)
          (s1 : State) (o : List String), whileLoop (f+1) c b aV aT s = .ok v t s1 o →
          State.Extends s1 s ∧ (pure_expr c = true → pure_expr b = true → s1 = s) := by
        intro c b aV aT s v t s1 o h
        simp only [whileLoop] at h
        cases hc : evaluate f c s with
        | ok cv ct sc oc =>
            rw [hc] at h
            try dsimp only at h
            split at h
            · split at h
              · cases hb2 : evaluate f b sc with
                | ok bv bt s2 o2 =>
                    rw [hb2] at h
                    try dsimp only at h
                    obtain ⟨o3, h3, rfl⟩ := prependOut_ok h
                    obtain ⟨hx3, hp3⟩ := ihW c b bv bt s2 v t s1 o3 h3
                    obtain ⟨hx1, hp1⟩ := ihE c s _ _ _ _ hc
                    obtain ⟨hx2, hp2⟩ := ihE b sc _ _ _ _ hb2
                    refine ⟨(hx3.trans hx2).trans hx1, fun hpc hpb => ?_⟩
                    rw [hp3 hpc hpb, hp2 hpb, hp1 hpc]
                | error e o2 => rw [hb2] at h; simp at h
                | timeout o2 => rw [hb2] at h; simp at h
              · cases h
                exact ⟨.refl _, fun _ _ => rfl⟩
            · cases h
        | error e oc => rw [hc] at h; simp at h
        | timeout oc => rw [hc] at h; simp at h
      have hS : ∀ (es : List Expr) (aV : Value) (aT : Ty) (s : State) (v : Value) (t : Ty)
          (s1 : State) (o : List String), evalSeq (f+1) es aV aT s = .ok v t s1 o →
          State.Extends s1 s ∧ (pure_list es = true → s1 = s) := by
        intro es
        induction es with
        | nil =>
            intro aV aT s v t s1 o h
            simp only [evalSeq] at h
            cases h
            exact ⟨.refl _, fun _ => rfl⟩
        | cons e rest ih2 =>
            intro aV aT s v t s1 o h
            simp only [evalSeq] at h
            cases hc : evaluate (f+1) e s with
            | ok v1 t1 s2 o1 =>
                rw [hc] at h
                try dsimp only at h
                obtain ⟨o3, h3, rfl⟩ := prependOut_ok h
                obtain ⟨hx2, hp2⟩ := ih2 v1 t1 s2 v t s1 o3 h3
                obtain ⟨hx1, hp1⟩ := hE e s _ _ _ _ hc
                refine ⟨hx2.trans hx1, fun hpp => ?_⟩
                obtain ⟨hpe, hpr⟩ : pure_expr e = true ∧ pure_list rest = true := by
                  simpa [pure_list, Bool.and_eq_true] using hpp
                rw [hp2 hpr, hp1 hpe]
            | error err o1 => rw [hc] at h; simp at h
            | timeout o1 => rw [hc] at h; simp at h
      exact ⟨hE, hS, hW⟩

/-- C7: the environment is persistent and extend-only.  Whenever
evaluation succeeds, the input environment chain is a suffix of the
returned chain: chains only grow by prepending new head nodes (each
binding node of the input chain, with its name, value, type and parent
link, is a node of the output chain unchanged). -/
theorem evaluate_extends_environment
    (fuel : Nat) (e : Expr) (s : State) (v : Value) (t : Ty) (s1 : State)
    (o : List String) (h : evaluate fuel e s = .ok v t s1 o) :
    State.Extends s1 s :=
  ((state_invariant fuel).1 e s v t s1 o h).1

theorem evaluate_extends_environment_witness :
    State.Extends (.mk "x" (.VInt 1) .Integer .EmptyState) .EmptyState :=
  evaluate_extends_environment 2 (.Assign "x" (.IntLiteral 1)) .EmptyState
    (.VInt 1) .Integer (.mk "x" (.VInt 1) .Integer .EmptyState) []
    (by simp [evaluate, EvalResult.andThen, EvalResult.prependOut,
      State.get_value, State.set_value])

/-- C9: purity.  An expression containing no Assign and no Print node
returns the input environment unchanged, and (the evaluator being a
function of the expression and environment) re-evaluating it against
that returned environment is the very same evaluation. -/
theorem pure_expressions_preserve_environment
    (fuel : Nat) (e : Expr) (s : State) (v : Value) (t : Ty) (s1 : State)
    (o : List String) (hp : pure_expr e = true)
    (h : evaluate fuel e s = .ok v t s1 o) :
    s1 = s ∧ evaluate fuel e s1 = evaluate fuel e s := by
  have hs := ((state_invariant fuel).1 e s v t s1 o h).2 hp
  exact ⟨hs, by rw [hs]⟩

theorem pure_expressions_preserve_environment_witness :
    (.EmptyState : State) = .EmptyState
    ∧ evaluate 2 (.Add (.IntLiteral 1) (.IntLiteral 2)) .EmptyState
        = evaluate 2 (.Add (.IntLiteral 1) (.IntLiteral 2)) .EmptyState := by
  have h := pure_expressions_preserve_environment 2 (.Add (.IntLiteral 1) (.IntLiteral 2))
    .EmptyState (.VInt 3) .Integer .EmptyState [] (by simp [pure_expr])
    (by simp [evaluate, EvalResult.andThen, EvalResult.prependOut])
  exact ⟨h.1, h.2⟩

end Stimpl
